import Mathlib

/-!
Shallow embedding of the credit-ledger / image-generation backend
(Express + Mongoose service: user registration, job submission, background
generation worker with retry and model fallback, billing purchase), together
with proofs of the specified lifecycle and accounting properties.

Conventions of the embedding:
- Mongo ObjectIds are modelled as `Nat`, allocated from counters in `State`.
- JS money amounts (9.99, 29.99, 59.99) are embedded in integer cents
  (999, 2999, 5999) to stay in exact arithmetic; credit counts are `Int`.
- A missing or falsy string field (`model`, `prompt`) is the empty string.
- `Transaction.create` prepends the entry to the ledger list; list order is
  irrelevant to every stated property.
- Persistence is modelled as reliable (the source leaves persistence
  failures unspecified); the HuggingFace client is modelled as configured,
  and the synthesis provider is an arbitrary per-attempt success predicate
  together with a per-attempt error-message function.
- Each `job.save()` appends the persisted status to the job's `history`
  field, a ghost field recording the sequence of persisted status values.
-/

inductive JobStatus where
  | pending
  | processing
  | completed
  | failed
deriving DecidableEq

inductive TxType where
  | purchase
  | usage
  | refund
  | bonus
deriving DecidableEq

structure UserR where
  id : Nat
  email : String
  credits : Int
deriving DecidableEq

structure JobR where
  id : Nat
  userId : Nat
  prompt : String
  model : String
  status : JobStatus
  errorMsg : Option String
  resultModel : Option String
  history : List JobStatus
deriving DecidableEq

structure TxR where
  userId : Nat
  type : TxType
  amount : Int
  credits : Int
  description : String
  jobId : Option Nat
  packageId : Option String
  paymentMethod : Option String
deriving DecidableEq

structure State where
  users : List UserR
  jobs : List JobR
  ledger : List TxR
  nextUserId : Nat
  nextJobId : Nat
deriving DecidableEq

def findUser (s : State) (uid : Nat) : Option UserR :=
  s.users.find? fun u => u.id == uid

def findJob (s : State) (jid : Nat) : Option JobR :=
  s.jobs.find? fun j => j.id == jid

def setUser (s : State) (uid : Nat) (f : UserR → UserR) : State :=
  { s with users := s.users.map fun u => if u.id = uid then f u else u }

def setJob (s : State) (jid : Nat) (f : JobR → JobR) : State :=
  { s with jobs := s.jobs.map fun j => if j.id = jid then f j else j }

def addTx (s : State) (t : TxR) : State :=
  { s with ledger := t :: s.ledger }

/-- Sum of the `credits` deltas of the ledger entries belonging to `uid`. -/
def ledgerSum : List TxR → Nat → Int
  | [], _ => 0
  | t :: l, uid => (if t.userId = uid then t.credits else 0) + ledgerSum l uid

/-- The `refund` ledger entries tagged with job id `jid`. -/
def refundsFor : List TxR → Nat → List TxR
  | [], _ => []
  | t :: l, jid =>
    if t.type = TxType.refund ∧ t.jobId = some jid then t :: refundsFor l jid
    else refundsFor l jid

/-- The `usage` ledger entries tagged with job id `jid`. -/
def usageFor : List TxR → Nat → List TxR
  | [], _ => []
  | t :: l, jid =>
    if t.type = TxType.usage ∧ t.jobId = some jid then t :: usageFor l jid
    else usageFor l jid

/-- The full persisted-status history a job at rest in the given status has
gone through (`pending` at creation, each later status at its save). -/
def historyOf : JobStatus → List JobStatus
  | .pending => [.pending]
  | .processing => [.pending, .processing]
  | .completed => [.pending, .processing, .completed]
  | .failed => [.pending, .processing, .failed]

/-- Model-name fallback step inside the retry loop (server lines 268-272):
`FLUX.1-schnell → stable-diffusion-2-1 → stable-diffusion-v1-5`; any other
current model id is left unchanged. -/
def advanceModel (m : String) : String :=
  if m = "black-forest-labs/FLUX.1-schnell" then "stabilityai/stable-diffusion-2-1"
  else if m = "stabilityai/stable-diffusion-2-1" then "runwayml/stable-diffusion-v1-5"
  else m

/-- Static lookup from the job's requested `model` field to the first model
id tried (server lines 238-245). -/
def initialModelId (jobModel : String) : String :=
  if jobModel = "dalle-3" then "black-forest-labs/FLUX.1-schnell"
  else if jobModel = "midjourney" then "prompthero/openjourney-v4"
  else if jobModel = "stability-sd-3" then "stabilityai/stable-diffusion-2-1"
  else "black-forest-labs/FLUX.1-schnell"

structure LoopResult where
  image : Option String
  usedModel : String
  lastError : Option String
  attempts : List String
deriving DecidableEq

/-- The worker's retry loop (server lines 246-276). `succ i m` says whether
attempt number `i` with model id `m` produces an image before the 60 s
timeout; `err i m` is its error message otherwise. `attempts` records the
model id of each iteration (the value logged at line 251). On a failed
attempt the loop decrements `retries` and advances the model id only when
retries remain. -/
def runLoop (succ : Nat → String → Bool) (err : Nat → String → String) :
    Nat → String → Nat → Option String → LoopResult
  | _, modelId, 0, le => ⟨none, modelId, le, []⟩
  | i, modelId, r + 1, le =>
    if succ i modelId then ⟨some "image", modelId, le, [modelId]⟩
    else
      let m2 := if 0 < r then advanceModel modelId else modelId
      let rest := runLoop succ err (i + 1) m2 r (some (err i modelId))
      { rest with attempts := modelId :: rest.attempts }

/-- The message stored in `job.error.message` when the loop produced no
image: the worker throws `lastError || Error("Failed to generate image after
retries")` and the catch block stores `error.message || "Image generation
failed"`. -/
def errorMessage : Option String → String
  | some m => if m = "" then "Image generation failed" else m
  | none => "Failed to generate image after retries"

def bonusTx (uid : Nat) : TxR :=
  { userId := uid, type := .bonus, amount := 0, credits := 100,
    description := "Welcome bonus credits",
    jobId := none, packageId := none, paymentMethod := none }

def usageTx (uid jid : Nat) (prompt : String) : TxR :=
  { userId := uid, type := .usage, amount := 0, credits := -1,
    description := "Image generation: " ++ prompt.take 50 ++ "...",
    jobId := some jid, packageId := none, paymentMethod := none }

def refundTx (uid jid : Nat) : TxR :=
  { userId := uid, type := .refund, amount := 0, credits := 1,
    description := "Refund for failed generation",
    jobId := some jid, packageId := none, paymentMethod := none }

def purchaseTx (uid : Nat) (pid pm : String) (priceCents creditsGranted : Int) : TxR :=
  { userId := uid, type := .purchase, amount := priceCents, credits := creditsGranted,
    description := "Purchased " ++ pid ++ " package",
    jobId := none, packageId := some pid, paymentMethod := some pm }

inductive RegisterResult where
  | emailTaken
  | registered (uid : Nat)
deriving DecidableEq

/-- POST /api/auth/register (server lines 63-95): reject a duplicate email,
else create the user with 100 credits and append the welcome-bonus ledger
entry. -/
def registerUser (s : State) (email : String) : RegisterResult × State :=
  match s.users.find? (fun u => u.email == email) with
  | some _ => (.emailTaken, s)
  | none =>
    let uid := s.nextUserId
    let s1 : State :=
      { s with users := { id := uid, email := email, credits := 100 } :: s.users,
               nextUserId := uid + 1 }
    (.registered uid, addTx s1 (bonusTx uid))

inductive SubmitResult where
  | noUser
  | promptRequired
  | insufficientCredits
  | accepted (jid : Nat)
deriving DecidableEq

/-- Persisted state after `job.save()` (server line 196): the Job record
exists, in `pending`, before any balance or ledger write. -/
def submitStep1 (s : State) (uid : Nat) (prompt model : String) : State :=
  { s with
      jobs := { id := s.nextJobId, userId := uid, prompt := prompt,
                model := if model = "" then "stabilityai/stable-diffusion-xl-base-1.0"
                         else model,
                status := .pending, errorMsg := none, resultModel := none,
                history := [.pending] } :: s.jobs,
      nextJobId := s.nextJobId + 1 }

/-- Persisted state after `req.user.save()` (server line 198): balance
debited by 1. -/
def submitStep2 (s : State) (uid : Nat) : State :=
  setUser s uid fun u => { u with credits := u.credits - 1 }

/-- Persisted state after `Transaction.create` (server lines 199-206). -/
def submitStep3 (s : State) (uid jid : Nat) (prompt : String) : State :=
  addTx s (usageTx uid jid prompt)

/-- POST /api/images/generate (server lines 179-213), up to scheduling the
worker: validate the prompt, admission-guard on credits, then job save,
debit, usage ledger entry, in the source's order. -/
def submitJob (s : State) (uid : Nat) (prompt model : String) :
    SubmitResult × State :=
  match findUser s uid with
  | none => (.noUser, s)
  | some u =>
    if prompt = "" then (.promptRequired, s)
    else if u.credits < 1 then (.insufficientCredits, s)
    else
      (.accepted s.nextJobId,
        submitStep3 (submitStep2 (submitStep1 s uid prompt model) uid)
          uid s.nextJobId prompt)

/-- The sequence of persisted states the submission handler passes through
when a job is admitted (after lines 196, 198 and 206 respectively); empty
when the request is rejected. -/
def submitTrace (s : State) (uid : Nat) (prompt model : String) : List State :=
  match findUser s uid with
  | none => []
  | some u =>
    if prompt = "" then []
    else if u.credits < 1 then []
    else
      let s1 := submitStep1 s uid prompt model
      let s2 := submitStep2 s1 uid
      [s1, s2, submitStep3 s2 uid s.nextJobId prompt]

/-- The purchase handler's internal package table (server lines 409-413);
prices in cents. -/
def purchasePackages (pid : String) : Option (Int × Int) :=
  if pid = "starter" then some (50, 999)
  else if pid = "pro" then some (220, 2999)
  else if pid = "ultimate" then some (600, 5999)
  else none

structure CatalogPackage where
  id : String
  name : String
  credits : Int
  priceCents : Int
  popular : Bool
  bonus : Option Int
deriving DecidableEq

/-- The billing catalog served by GET /api/billing/packages
(server lines 396-404). -/
def billingCatalog : List CatalogPackage :=
  [ { id := "starter", name := "Starter Pack", credits := 50, priceCents := 999,
      popular := false, bonus := none },
    { id := "pro", name := "Pro Pack", credits := 200, priceCents := 2999,
      popular := true, bonus := some 20 },
    { id := "ultimate", name := "Ultimate Pack", credits := 500, priceCents := 5999,
      popular := false, bonus := some 100 } ]

inductive PurchaseResult where
  | noUser
  | invalidPackage
  | purchased (newBalance : Int)
deriving DecidableEq

/-- POST /api/billing/purchase (server lines 406-437): look the package up
in the handler's internal table, credit the balance, append the purchase
ledger entry with price and payment metadata. -/
def purchase (s : State) (uid : Nat) (pid pm : String) : PurchaseResult × State :=
  match findUser s uid with
  | none => (.noUser, s)
  | some u =>
    match purchasePackages pid with
    | none => (.invalidPackage, s)
    | some (c, p) =>
      let s1 := setUser s uid fun v => { v with credits := v.credits + c }
      (.purchased (u.credits + c), addTx s1 (purchaseTx uid pid pm p c))

/-- processImageGeneration (server lines 215-323), with the HuggingFace
client configured. The worker persists `processing`, runs the retry loop,
then persists the terminal status; on loop exhaustion the catch block
persists `failed` with the captured message and, when the owning user is
found, credits 1 back and appends the refund ledger entry. -/
def runWorker (succ : Nat → String → Bool) (err : Nat → String → String)
    (s : State) (jid : Nat) : State :=
  match findJob s jid with
  | none => s
  | some j =>
    let s1 := setJob s jid fun k =>
      { k with status := .processing, history := k.history ++ [.processing] }
    let lr := runLoop succ err 0 (initialModelId j.model) 3 none
    match lr.image with
    | some _ =>
      setJob s1 jid fun k =>
        { k with status := .completed, resultModel := some lr.usedModel,
                 history := k.history ++ [.completed] }
    | none =>
      let s2 := setJob s1 jid fun k =>
        { k with status := .failed, errorMsg := some (errorMessage lr.lastError),
                 history := k.history ++ [.failed] }
      match findUser s2 j.userId with
      | none => s2
      | some _ =>
        addTx (setUser s2 j.userId fun u => { u with credits := u.credits + 1 })
          (refundTx j.userId jid)

/-- One sequential operation of the system. A worker run (`runJob`) models
the single fire-and-forget `processImageGeneration` invocation scheduled at
submission: the source schedules it exactly once per job, immediately after
the job is saved in `pending`, so sequentially a run can only observe the
job in `pending`; a run on a job in any other status cannot occur and is a
no-op here. -/
inductive Op where
  | register (email : String)
  | submitJob (uid : Nat) (prompt model : String)
  | runJob (jid : Nat) (succ : Nat → String → Bool) (err : Nat → String → String)
  | purchase (uid : Nat) (pid pm : String)

def step (s : State) : Op → State
  | .register email => (registerUser s email).2
  | .submitJob uid prompt model => (submitJob s uid prompt model).2
  | .runJob jid succ err =>
    match findJob s jid with
    | some j => if j.status = .pending then runWorker succ err s jid else s
    | none => s
  | .purchase uid pid pm => (purchase s uid pid pm).2

def initState : State :=
  { users := [], jobs := [], ledger := [], nextUserId := 0, nextJobId := 0 }

def runOps (ops : List Op) : State := ops.foldl step initState

/-! ### Basic lemmas about the state helpers -/

@[simp] theorem setUser_users (s : State) (uid : Nat) (f : UserR → UserR) :
    (setUser s uid f).users = s.users.map fun u => if u.id = uid then f u else u := rfl

@[simp] theorem setUser_jobs (s : State) (uid : Nat) (f : UserR → UserR) :
    (setUser s uid f).jobs = s.jobs := rfl

@[simp] theorem setUser_ledger (s : State) (uid : Nat) (f : UserR → UserR) :
    (setUser s uid f).ledger = s.ledger := rfl

@[simp] theorem setUser_nextUserId (s : State) (uid : Nat) (f : UserR → UserR) :
    (setUser s uid f).nextUserId = s.nextUserId := rfl

@[simp] theorem setUser_nextJobId (s : State) (uid : Nat) (f : UserR → UserR) :
    (setUser s uid f).nextJobId = s.nextJobId := rfl

@[simp] theorem setJob_users (s : State) (jid : Nat) (f : JobR → JobR) :
    (setJob s jid f).users = s.users := rfl

@[simp] theorem setJob_jobs (s : State) (jid : Nat) (f : JobR → JobR) :
    (setJob s jid f).jobs = s.jobs.map fun j => if j.id = jid then f j else j := rfl

@[simp] theorem setJob_ledger (s : State) (jid : Nat) (f : JobR → JobR) :
    (setJob s jid f).ledger = s.ledger := rfl

@[simp] theorem setJob_nextUserId (s : State) (jid : Nat) (f : JobR → JobR) :
    (setJob s jid f).nextUserId = s.nextUserId := rfl

@[simp] theorem setJob_nextJobId (s : State) (jid : Nat) (f : JobR → JobR) :
    (setJob s jid f).nextJobId = s.nextJobId := rfl

@[simp] theorem addTx_users (s : State) (t : TxR) : (addTx s t).users = s.users := rfl

@[simp] theorem addTx_jobs (s : State) (t : TxR) : (addTx s t).jobs = s.jobs := rfl

@[simp] theorem addTx_ledger (s : State) (t : TxR) : (addTx s t).ledger = t :: s.ledger := rfl

@[simp] theorem addTx_nextUserId (s : State) (t : TxR) :
    (addTx s t).nextUserId = s.nextUserId := rfl

@[simp] theorem addTx_nextJobId (s : State) (t : TxR) :
    (addTx s t).nextJobId = s.nextJobId := rfl

theorem ledgerSum_cons (t : TxR) (l : List TxR) (uid : Nat) :
    ledgerSum (t :: l) uid = (if t.userId = uid then t.credits else 0) + ledgerSum l uid := rfl

theorem ledgerSum_eq_zero {l : List TxR} {uid : Nat} (h : ∀ t ∈ l, t.userId ≠ uid) :
    ledgerSum l uid = 0 := by
  induction l with
  | nil => rfl
  | cons t l ih =>
    rw [ledgerSum_cons, if_neg (h t (List.mem_cons_self t l)), ih fun x hx => h x (List.mem_cons_of_mem t hx)]
    ring

theorem refundsFor_cons (t : TxR) (l : List TxR) (jid : Nat) :
    refundsFor (t :: l) jid =
      if t.type = TxType.refund ∧ t.jobId = some jid then t :: refundsFor l jid
      else refundsFor l jid := rfl

theorem refundsFor_cons_ne {t : TxR} (l : List TxR) {jid : Nat}
    (h : ¬(t.type = TxType.refund ∧ t.jobId = some jid)) :
    refundsFor (t :: l) jid = refundsFor l jid := by
  rw [refundsFor_cons, if_neg h]

theorem refundsFor_eq_nil {l : List TxR} {jid : Nat}
    (h : ∀ t ∈ l, t.jobId ≠ some jid) : refundsFor l jid = [] := by
  induction l with
  | nil => rfl
  | cons t l ih =>
    rw [refundsFor_cons_ne l fun hc => h t (List.mem_cons_self t l) hc.2]
    exact ih fun x hx => h x (List.mem_cons_of_mem t hx)

theorem usageFor_cons (t : TxR) (l : List TxR) (jid : Nat) :
    usageFor (t :: l) jid =
      if t.type = TxType.usage ∧ t.jobId = some jid then t :: usageFor l jid
      else usageFor l jid := rfl

theorem usageFor_eq_nil {l : List TxR} {jid : Nat}
    (h : ∀ t ∈ l, t.jobId ≠ some jid) : usageFor l jid = [] := by
  induction l with
  | nil => rfl
  | cons t l ih =>
    rw [usageFor_cons, if_neg fun hc => h t (List.mem_cons_self t l) hc.2]
    exact ih fun x hx => h x (List.mem_cons_of_mem t hx)

/-- `find?` by id commutes with an id-preserving pointwise update at that id. -/
theorem find?_map_update {α : Type} (idf : α → Nat) (l : List α) (k : Nat) (f : α → α)
    (hf : ∀ a, idf (f a) = idf a) :
    ((l.map fun a => if idf a = k then f a else a).find? fun a => idf a == k)
      = (l.find? fun a => idf a == k).map f := by
  induction l with
  | nil => rfl
  | cons a l ih =>
    simp only [List.map_cons]
    by_cases h : idf a = k
    · have h1 : (idf (f a) == k) = true := by rw [hf, h]; exact beq_self_eq_true k
      have h2 : (idf a == k) = true := by rw [h]; exact beq_self_eq_true k
      rw [if_pos h, List.find?_cons, List.find?_cons]
      simp only [h1, h2, Option.map_some']
    · have h2 : (idf a == k) = false := by
        simp only [beq_eq_false_iff_ne, ne_eq]; exact h
      rw [if_neg h, List.find?_cons, List.find?_cons]
      simp only [h2]
      exact ih

theorem findUser_setUser (s : State) (uid : Nat) (f : UserR → UserR)
    (hf : ∀ u, (f u).id = u.id) :
    findUser (setUser s uid f) uid = (findUser s uid).map f := by
  simpa [findUser, setUser] using find?_map_update UserR.id s.users uid f hf

theorem mem_of_id_map_nodup {α : Type} (idf : α → Nat) {l : List α}
    (h : (l.map idf).Nodup) {a b : α} (ha : a ∈ l) (hb : b ∈ l)
    (hid : idf a = idf b) : a = b :=
  List.inj_on_of_nodup_map h ha hb hid

theorem setJob_setJob (s : State) (jid : Nat) (f g : JobR → JobR)
    (hf : ∀ j, (f j).id = j.id) :
    setJob (setJob s jid f) jid g = setJob s jid fun j => g (f j) := by
  unfold setJob
  simp only [List.map_map]
  congr 1
  apply List.map_congr_left
  intro j _
  by_cases h : j.id = jid
  · simp [Function.comp, h, hf]
  · simp [Function.comp, h]

theorem map_id_update {α : Type} (idf : α → Nat) (l : List α) (k : Nat) (f : α → α)
    (hf : ∀ a, idf (f a) = idf a) :
    (l.map fun a => if idf a = k then f a else a).map idf = l.map idf := by
  rw [List.map_map]
  apply List.map_congr_left
  intro a _
  by_cases h : idf a = k <;> simp [Function.comp, h, hf]

theorem findJob_setJob (s : State) (jid : Nat) (f : JobR → JobR)
    (hf : ∀ j, (f j).id = j.id) :
    findJob (setJob s jid f) jid = (findJob s jid).map f := by
  simpa [findJob, setJob] using find?_map_update JobR.id s.jobs jid f hf

theorem findJob_unique (s : State) (h : (s.jobs.map JobR.id).Nodup) {jid : Nat} {j j' : JobR}
    (hfind : findJob s jid = some j) (hmem : j' ∈ s.jobs) (hid : j'.id = jid) : j' = j := by
  have hj := List.mem_of_find?_eq_some hfind
  have hjid : j.id = jid := by simpa using List.find?_some hfind
  exact mem_of_id_map_nodup JobR.id h hmem hj (by rw [hid, hjid])

theorem findUser_isSome_of_live (s : State) (uid : Nat)
    (hu : ∃ u ∈ s.users, u.id = uid) : ∃ u, findUser s uid = some u := by
  obtain ⟨u, hmem, hid⟩ := hu
  have hs : (s.users.find? fun v => v.id == uid).isSome := by
    rw [List.find?_isSome]
    exact ⟨u, hmem, by simp [hid]⟩
  obtain ⟨v, hv⟩ := Option.isSome_iff_exists.1 hs
  exact ⟨v, hv⟩

/-! ### The inductive invariant of the sequential machine -/

/-- Invariant maintained by every sequential operation: fresh ids are
bounded by the counters, job ids are unique, every job's owner exists,
each balance equals the user's ledger-delta sum, a job has exactly its
refund entry when `failed` and none otherwise, and each job at rest is in a
non-`processing` status whose persisted history is the canonical one. -/
structure SysInv (s : State) : Prop where
  userIdLt : ∀ u ∈ s.users, u.id < s.nextUserId
  txUserLt : ∀ t ∈ s.ledger, t.userId < s.nextUserId
  jobIdLt : ∀ j ∈ s.jobs, j.id < s.nextJobId
  jobIdsNodup : (s.jobs.map JobR.id).Nodup
  jobUserLive : ∀ j ∈ s.jobs, ∃ u ∈ s.users, u.id = j.userId
  balance : ∀ u ∈ s.users, u.credits = ledgerSum s.ledger u.id
  refunds : ∀ j ∈ s.jobs,
    refundsFor s.ledger j.id =
      if j.status = JobStatus.failed then [refundTx j.userId j.id] else []
  txJobLt : ∀ t ∈ s.ledger, ∀ k, t.jobId = some k → k < s.nextJobId
  histories : ∀ j ∈ s.jobs,
    j.status ≠ JobStatus.processing ∧ j.history = historyOf j.status

theorem inv_initState : SysInv initState := by
  constructor <;> simp [initState]

theorem inv_register (s : State) (h : SysInv s) (email : String) :
    SysInv (registerUser s email).2 := by
  unfold registerUser
  split
  · exact h
  · refine ⟨?_, ?_, ?_, ?_, ?_, ?_, ?_, ?_, ?_⟩
    · intro u hu
      simp only [addTx, List.mem_cons] at hu
      rcases hu with rfl | hu
      · exact Nat.lt_succ_self _
      · exact Nat.lt_succ_of_lt (h.userIdLt u hu)
    · intro t ht
      simp only [addTx, List.mem_cons] at ht
      rcases ht with rfl | ht
      · simp [bonusTx]
      · exact Nat.lt_succ_of_lt (h.txUserLt t ht)
    · intro j hj
      exact h.jobIdLt j hj
    · exact h.jobIdsNodup
    · intro j hj
      obtain ⟨u, hu, hid⟩ := h.jobUserLive j hj
      exact ⟨u, List.mem_cons_of_mem _ hu, hid⟩
    · intro u hu
      rcases List.mem_cons.1 hu with rfl | hu
      · have h0 : ledgerSum s.ledger s.nextUserId = 0 :=
          ledgerSum_eq_zero fun t ht => Nat.ne_of_lt (h.txUserLt t ht)
        simp [addTx, ledgerSum_cons, bonusTx, h0]
      · have hne : (bonusTx s.nextUserId).userId ≠ u.id := by
          simp only [bonusTx]
          exact fun hc => absurd hc.symm (Nat.ne_of_lt (h.userIdLt u hu))
        simp only [addTx, ledgerSum_cons, if_neg hne, zero_add]
        exact h.balance u hu
    · intro j hj
      show refundsFor (bonusTx s.nextUserId :: s.ledger) j.id =
        if j.status = JobStatus.failed then [refundTx j.userId j.id] else []
      rw [refundsFor_cons_ne _ (by simp [bonusTx])]
      exact h.refunds j hj
    · intro t ht k hk
      rcases List.mem_cons.1 ht with rfl | ht
      · simp [bonusTx] at hk
      · exact h.txJobLt t ht k hk
    · intro j hj
      exact h.histories j hj

theorem not_mem_of_lt {l : List Nat} {n : Nat} (h : ∀ x ∈ l, x < n) : n ∉ l :=
  fun hmem => Nat.lt_irrefl n (h n hmem)

theorem live_map_update (l : List UserR) (uid v : Nat) (f : UserR → UserR)
    (hf : ∀ u, (f u).id = u.id) (h : ∃ u ∈ l, u.id = v) :
    ∃ u ∈ l.map (fun u => if u.id = uid then f u else u), u.id = v := by
  obtain ⟨u, hmem, hid⟩ := h
  refine ⟨if u.id = uid then f u else u, List.mem_map_of_mem _ hmem, ?_⟩
  by_cases hc : u.id = uid
  · rw [if_pos hc, hf u]
    exact hid
  · rw [if_neg hc]
    exact hid

theorem findUser_id {s : State} {uid : Nat} {u : UserR} (h : findUser s uid = some u) :
    u.id = uid := by
  simpa using List.find?_some h

theorem findUser_mem {s : State} {uid : Nat} {u : UserR} (h : findUser s uid = some u) :
    u ∈ s.users := List.mem_of_find?_eq_some h

theorem findJob_id {s : State} {jid : Nat} {j : JobR} (h : findJob s jid = some j) :
    j.id = jid := by
  simpa using List.find?_some h

theorem findJob_mem {s : State} {jid : Nat} {j : JobR} (h : findJob s jid = some j) :
    j ∈ s.jobs := List.mem_of_find?_eq_some h

theorem inv_purchase (s : State) (h : SysInv s) (uid : Nat) (pid pm : String) :
    SysInv (purchase s uid pid pm).2 := by
  cases hfu : findUser s uid with
  | none => simpa [purchase, hfu] using h
  | some u =>
    cases hpkg : purchasePackages pid with
    | none => simpa [purchase, hfu, hpkg] using h
    | some cp =>
      obtain ⟨c, p⟩ := cp
      have huid : u.id = uid := findUser_id hfu
      have humem : u ∈ s.users := findUser_mem hfu
      have hstate : (purchase s uid pid pm).2 =
          addTx (setUser s uid fun v => { v with credits := v.credits + c })
            (purchaseTx uid pid pm p c) := by
        simp [purchase, hfu, hpkg]
      rw [hstate]
      refine ⟨?_, ?_, ?_, ?_, ?_, ?_, ?_, ?_, ?_⟩
      · intro v hv
        simp only [addTx_users, setUser_users] at hv
        obtain ⟨w, hw, rfl⟩ := List.mem_map.1 hv
        have := h.userIdLt w hw
        simp only [addTx_nextUserId, setUser_nextUserId]
        by_cases hc : w.id = uid <;> simp [hc] <;> omega
      · intro t ht
        simp only [addTx_ledger, setUser_ledger, List.mem_cons] at ht
        simp only [addTx_nextUserId, setUser_nextUserId]
        rcases ht with rfl | ht
        · simpa [purchaseTx] using huid ▸ h.userIdLt u humem
        · exact h.txUserLt t ht
      · intro j hj
        exact h.jobIdLt j hj
      · exact h.jobIdsNodup
      · intro j hj
        simp only [addTx_jobs, setUser_jobs] at hj
        simp only [addTx_users, setUser_users]
        exact live_map_update _ uid _ _ (fun v => rfl) (h.jobUserLive j hj)
      · intro v hv
        simp only [addTx_users, setUser_users] at hv
        obtain ⟨w, hw, rfl⟩ := List.mem_map.1 hv
        have hb := h.balance w hw
        simp only [addTx_ledger, setUser_ledger]
        by_cases hc : w.id = uid
        · rw [hc] at hb
          simp [hc, ledgerSum_cons, purchaseTx]
          omega
        · have hc' : uid ≠ w.id := fun hx => hc hx.symm
          simp [hc, ledgerSum_cons, purchaseTx, hc']
          omega
      · intro j hj
        simp only [addTx_jobs, setUser_jobs] at hj
        simp only [addTx_ledger, setUser_ledger]
        rw [refundsFor_cons_ne _ (by simp [purchaseTx])]
        exact h.refunds j hj
      · intro t ht k hk
        simp only [addTx_ledger, setUser_ledger, List.mem_cons] at ht
        simp only [addTx_nextJobId, setUser_nextJobId]
        rcases ht with rfl | ht
        · simp [purchaseTx] at hk
        · exact h.txJobLt t ht k hk
      · intro j hj
        exact h.histories j hj

theorem inv_submit (s : State) (h : SysInv s) (uid : Nat) (prompt model : String) :
    SysInv (submitJob s uid prompt model).2 := by
  cases hfu : findUser s uid with
  | none => simpa [submitJob, hfu] using h
  | some u =>
    by_cases hp : prompt = ""
    · simpa [submitJob, hfu, hp] using h
    by_cases hcr : u.credits < 1
    · simpa [submitJob, hfu, hp, hcr] using h
    have huid : u.id = uid := findUser_id hfu
    have humem : u ∈ s.users := findUser_mem hfu
    have hstate : (submitJob s uid prompt model).2 =
        { users := s.users.map fun v => if v.id = uid then { v with credits := v.credits - 1 } else v,
          jobs := { id := s.nextJobId, userId := uid, prompt := prompt,
                    model := if model = "" then "stabilityai/stable-diffusion-xl-base-1.0"
                             else model,
                    status := .pending, errorMsg := none, resultModel := none,
                    history := [.pending] } :: s.jobs,
          ledger := usageTx uid s.nextJobId prompt :: s.ledger,
          nextUserId := s.nextUserId, nextJobId := s.nextJobId + 1 } := by
      simp [submitJob, hfu, hp, hcr, submitStep1, submitStep2, submitStep3, setUser, addTx]
    rw [hstate]
    refine ⟨?_, ?_, ?_, ?_, ?_, ?_, ?_, ?_, ?_⟩
    · intro v hv
      simp only [List.mem_map] at hv
      obtain ⟨w, hw, rfl⟩ := hv
      have := h.userIdLt w hw
      by_cases hc : w.id = uid <;> simp [hc] <;> omega
    · intro t ht
      simp only [List.mem_cons] at ht
      rcases ht with rfl | ht
      · simpa [usageTx] using huid ▸ h.userIdLt u humem
      · exact h.txUserLt t ht
    · intro j hj
      simp only [List.mem_cons] at hj
      rcases hj with rfl | hj
      · simp
      · exact Nat.lt_succ_of_lt (h.jobIdLt j hj)
    · simp only [List.map_cons]
      refine List.Nodup.cons ?_ h.jobIdsNodup
      exact not_mem_of_lt fun x hx => by
        obtain ⟨j, hj, rfl⟩ := List.mem_map.1 hx
        exact h.jobIdLt j hj
    · intro j hj
      simp only [List.mem_cons] at hj
      rcases hj with rfl | hj
      · exact live_map_update _ uid _ _ (fun v => rfl) ⟨u, humem, huid⟩
      · exact live_map_update _ uid _ _ (fun v => rfl) (h.jobUserLive j hj)
    · intro v hv
      simp only [List.mem_map] at hv
      obtain ⟨w, hw, rfl⟩ := hv
      have hb := h.balance w hw
      by_cases hc : w.id = uid
      · rw [hc] at hb
        simp [hc, ledgerSum_cons, usageTx]
        omega
      · have hc' : uid ≠ w.id := fun hx => hc hx.symm
        simp [hc, ledgerSum_cons, usageTx, hc']
        omega
    · intro j hj
      simp only [List.mem_cons] at hj
      have hcons : ∀ k, refundsFor (usageTx uid s.nextJobId prompt :: s.ledger) k =
          refundsFor s.ledger k :=
        fun k => refundsFor_cons_ne _ (by simp [usageTx])
      rcases hj with rfl | hj
      · rw [hcons]
        have hnil : refundsFor s.ledger s.nextJobId = [] :=
          refundsFor_eq_nil fun t ht hcontra =>
            Nat.lt_irrefl s.nextJobId (h.txJobLt t ht s.nextJobId hcontra)
        simp [hnil]
      · rw [hcons]
        exact h.refunds j hj
    · intro t ht k hk
      simp only [List.mem_cons] at ht
      rcases ht with rfl | ht
      · simp only [usageTx, Option.some.injEq] at hk
        show k < s.nextJobId + 1
        omega
      · exact Nat.lt_succ_of_lt (h.txJobLt t ht k hk)
    · intro j hj
      simp only [List.mem_cons] at hj
      rcases hj with rfl | hj
      · exact ⟨by simp, rfl⟩
      · exact h.histories j hj

@[simp] theorem findUser_setJob (s : State) (jid : Nat) (f : JobR → JobR) (uid : Nat) :
    findUser (setJob s jid f) uid = findUser s uid := rfl

@[simp] theorem findUser_addTx (s : State) (t : TxR) (uid : Nat) :
    findUser (addTx s t) uid = findUser s uid := rfl

@[simp] theorem findJob_setUser (s : State) (uid : Nat) (f : UserR → UserR) (jid : Nat) :
    findJob (setUser s uid f) jid = findJob s jid := rfl

@[simp] theorem findJob_addTx (s : State) (t : TxR) (jid : Nat) :
    findJob (addTx s t) jid = findJob s jid := rfl

theorem inv_runJob (s : State) (h : SysInv s)
    (jid : Nat) (succ : Nat → String → Bool) (err : Nat → String → String) :
    SysInv (step s (Op.runJob jid succ err)) := by
  cases hfj : findJob s jid with
  | none => simpa [step, hfj] using h
  | some j =>
    by_cases hpend : j.status = JobStatus.pending
    case neg => simpa [step, hfj, hpend] using h
    have hjid : j.id = jid := findJob_id hfj
    have hjmem : j ∈ s.jobs := findJob_mem hfj
    have hstep : step s (Op.runJob jid succ err) = runWorker succ err s jid := by
      simp [step, hfj, hpend]
    rw [hstep]
    cases himg : (runLoop succ err 0 (initialModelId j.model) 3 none).image with
    | some img =>
      have hrw : runWorker succ err s jid =
          setJob (setJob s jid fun k =>
              { k with status := .processing, history := k.history ++ [.processing] }) jid fun k =>
            { k with status := .completed,
                     resultModel :=
                       some (runLoop succ err 0 (initialModelId j.model) 3 none).usedModel,
                     history := k.history ++ [.completed] } := by
        simp [runWorker, hfj, himg]
      rw [hrw, setJob_setJob _ _ _ _ (fun k => rfl : ∀ k : JobR,
        ({ k with status := JobStatus.processing,
                  history := k.history ++ [JobStatus.processing] } : JobR).id = k.id)]
      refine ⟨?_, ?_, ?_, ?_, ?_, ?_, ?_, ?_, ?_⟩
      · exact h.userIdLt
      · exact h.txUserLt
      · intro j2 hj2
        simp only [setJob_jobs, List.mem_map] at hj2
        obtain ⟨w, hw, rfl⟩ := hj2
        have := h.jobIdLt w hw
        by_cases hcw : w.id = jid <;> simp [hcw] <;> omega
      · simp only [setJob_jobs]
        rw [map_id_update]
        · exact h.jobIdsNodup
        · intro k
          rfl
      · intro j2 hj2
        simp only [setJob_jobs, List.mem_map] at hj2
        obtain ⟨w, hw, rfl⟩ := hj2
        by_cases hcw : w.id = jid
        · simp only [if_pos hcw]
          exact h.jobUserLive w hw
        · simp only [if_neg hcw]
          exact h.jobUserLive w hw
      · exact h.balance
      · intro j2 hj2
        simp only [setJob_jobs, List.mem_map] at hj2
        obtain ⟨w, hw, rfl⟩ := hj2
        by_cases hcw : w.id = jid
        · have hwj : w = j := findJob_unique s h.jobIdsNodup hfj hw hcw
          subst hwj
          simp only [if_pos hcw]
          have hold : refundsFor s.ledger w.id = [] := by
            have h2 := h.refunds w hw
            rw [hpend] at h2
            simpa using h2
          show refundsFor s.ledger w.id = []
          exact hold
        · simp only [if_neg hcw]
          exact h.refunds w hw
      · exact h.txJobLt
      · intro j2 hj2
        simp only [setJob_jobs, List.mem_map] at hj2
        obtain ⟨w, hw, rfl⟩ := hj2
        by_cases hcw : w.id = jid
        · have hwj : w = j := findJob_unique s h.jobIdsNodup hfj hw hcw
          subst hwj
          simp only [if_pos hcw]
          have hh : w.history = historyOf JobStatus.pending := by
            have h2 := (h.histories w hw).2
            rwa [hpend] at h2
          refine ⟨by simp, ?_⟩
          show (w.history ++ [JobStatus.processing]) ++ [JobStatus.completed] =
            historyOf JobStatus.completed
          rw [hh]
          rfl
        · simp only [if_neg hcw]
          exact h.histories w hw
    | none =>
      obtain ⟨u2, hu2⟩ := findUser_isSome_of_live s j.userId (h.jobUserLive j hjmem)
      have hrw : runWorker succ err s jid =
          addTx (setUser (setJob (setJob s jid fun k =>
                  { k with status := .processing, history := k.history ++ [.processing] }) jid fun k =>
                { k with status := .failed,
                         errorMsg := some (errorMessage
                           (runLoop succ err 0 (initialModelId j.model) 3 none).lastError),
                         history := k.history ++ [.failed] })
              j.userId fun u => { u with credits := u.credits + 1 })
            (refundTx j.userId jid) := by
        simp [runWorker, hfj, himg, hu2]
      rw [hrw, setJob_setJob _ _ _ _ (fun k => rfl : ∀ k : JobR,
        ({ k with status := JobStatus.processing,
                  history := k.history ++ [JobStatus.processing] } : JobR).id = k.id)]
      refine ⟨?_, ?_, ?_, ?_, ?_, ?_, ?_, ?_, ?_⟩
      · intro v hv
        simp only [addTx_users, setUser_users, setJob_users, List.mem_map] at hv
        obtain ⟨w, hw, rfl⟩ := hv
        have := h.userIdLt w hw
        simp only [addTx_nextUserId, setUser_nextUserId, setJob_nextUserId]
        by_cases hcw : w.id = j.userId <;> simp [hcw] <;> omega
      · intro t ht
        simp only [addTx_ledger, setUser_ledger, setJob_ledger, List.mem_cons] at ht
        simp only [addTx_nextUserId, setUser_nextUserId, setJob_nextUserId]
        rcases ht with rfl | ht
        · obtain ⟨u0, hu0m, hu0id⟩ := h.jobUserLive j hjmem
          simpa [refundTx] using hu0id ▸ h.userIdLt u0 hu0m
        · exact h.txUserLt t ht
      · intro j2 hj2
        simp only [addTx_jobs, setUser_jobs, setJob_jobs, List.mem_map] at hj2
        obtain ⟨w, hw, rfl⟩ := hj2
        have := h.jobIdLt w hw
        simp only [addTx_nextJobId, setUser_nextJobId, setJob_nextJobId]
        by_cases hcw : w.id = jid <;> simp [hcw] <;> omega
      · simp only [addTx_jobs, setUser_jobs, setJob_jobs]
        rw [map_id_update]
        · exact h.jobIdsNodup
        · intro k
          rfl
      · intro j2 hj2
        simp only [addTx_jobs, setUser_jobs, setJob_jobs, List.mem_map] at hj2
        obtain ⟨w, hw, rfl⟩ := hj2
        simp only [addTx_users, setUser_users, setJob_users]
        by_cases hcw : w.id = jid
        · simp only [if_pos hcw]
          exact live_map_update _ _ _ _ (fun v => rfl) (h.jobUserLive w hw)
        · simp only [if_neg hcw]
          exact live_map_update _ _ _ _ (fun v => rfl) (h.jobUserLive w hw)
      · intro v hv
        simp only [addTx_users, setUser_users, setJob_users, List.mem_map] at hv
        obtain ⟨w, hw, rfl⟩ := hv
        have hb := h.balance w hw
        simp only [addTx_ledger, setUser_ledger, setJob_ledger]
        by_cases hcw : w.id = j.userId
        · rw [hcw] at hb
          simp [hcw, ledgerSum_cons, refundTx]
          omega
        · have hcw' : j.userId ≠ w.id := fun hx => hcw hx.symm
          simp [hcw, ledgerSum_cons, refundTx, hcw']
          omega
      · intro j2 hj2
        simp only [addTx_jobs, setUser_jobs, setJob_jobs, List.mem_map] at hj2
        obtain ⟨w, hw, rfl⟩ := hj2
        simp only [addTx_ledger, setUser_ledger, setJob_ledger]
        by_cases hcw : w.id = jid
        · have hwj : w = j := findJob_unique s h.jobIdsNodup hfj hw hcw
          subst hwj
          simp only [if_pos hcw]
          have hold : refundsFor s.ledger w.id = [] := by
            have h2 := h.refunds w hw
            rw [hpend] at h2
            simpa using h2
          show refundsFor (refundTx w.userId jid :: s.ledger) w.id = [refundTx w.userId w.id]
          rw [refundsFor_cons, if_pos (by simp [refundTx, hcw]), hold, hcw]
        · simp only [if_neg hcw]
          have hcons : refundsFor (refundTx j.userId jid :: s.ledger) w.id =
              refundsFor s.ledger w.id :=
            refundsFor_cons_ne _ (fun hx => hcw (Option.some.inj hx.2).symm)
          rw [hcons]
          exact h.refunds w hw
      · intro t ht k hk
        simp only [addTx_ledger, setUser_ledger, setJob_ledger, List.mem_cons] at ht
        simp only [addTx_nextJobId, setUser_nextJobId, setJob_nextJobId]
        rcases ht with rfl | ht
        · simp only [refundTx, Option.some.injEq] at hk
          subst hk
          exact hjid ▸ h.jobIdLt j hjmem
        · exact h.txJobLt t ht k hk
      · intro j2 hj2
        simp only [addTx_jobs, setUser_jobs, setJob_jobs, List.mem_map] at hj2
        obtain ⟨w, hw, rfl⟩ := hj2
        by_cases hcw : w.id = jid
        · have hwj : w = j := findJob_unique s h.jobIdsNodup hfj hw hcw
          subst hwj
          simp only [if_pos hcw]
          have hh : w.history = historyOf JobStatus.pending := by
            have h2 := (h.histories w hw).2
            rwa [hpend] at h2
          refine ⟨by simp, ?_⟩
          show (w.history ++ [JobStatus.processing]) ++ [JobStatus.failed] =
            historyOf JobStatus.failed
          rw [hh]
          rfl
        · simp only [if_neg hcw]
          exact h.histories w hw

theorem inv_step (s : State) (h : SysInv s) (op : Op) : SysInv (step s op) := by
  cases op with
  | register email => exact inv_register s h email
  | submitJob uid prompt model => exact inv_submit s h uid prompt model
  | runJob jid succ err => exact inv_runJob s h jid succ err
  | purchase uid pid pm => exact inv_purchase s h uid pid pm

theorem inv_foldl (ops : List Op) : ∀ s, SysInv s → SysInv (ops.foldl step s) := by
  induction ops with
  | nil => intro s h; exact h
  | cons op ops ih =>
    intro s h
    exact ih (step s op) (inv_step s h op)

theorem inv_runOps (ops : List Op) : SysInv (runOps ops) :=
  inv_foldl ops initState inv_initState

/-! ### Properties of the retry loop and the failure path -/

theorem runLoop_attempts_cons (succ : Nat → String → Bool) (err : Nat → String → String)
    (i : Nat) (m : String) (r : Nat) (le : Option String) :
    (runLoop succ err i m (r + 1) le).attempts =
      if succ i m then [m]
      else m :: (runLoop succ err (i + 1)
        (if 0 < r then advanceModel m else m) r (some (err i m))).attempts := by
  by_cases hs : succ i m <;> simp [runLoop, hs]

theorem runLoop_attempts_nil (succ : Nat → String → Bool) (err : Nat → String → String)
    (i : Nat) (m : String) (le : Option String) :
    (runLoop succ err i m 0 le).attempts = [] := rfl

theorem runLoop_attempts_head (succ : Nat → String → Bool) (err : Nat → String → String)
    (i : Nat) (m : String) (r : Nat) (le : Option String) (hr : 0 < r) :
    ∃ t, (runLoop succ err i m r le).attempts = m :: t := by
  cases r with
  | zero => exact absurd hr (Nat.lt_irrefl 0)
  | succ r =>
    rw [runLoop_attempts_cons]
    by_cases hs : succ i m
    · exact ⟨[], by rw [if_pos hs]⟩
    · exact ⟨_, by rw [if_neg hs]⟩

theorem runLoop_chain (succ : Nat → String → Bool) (err : Nat → String → String) :
    ∀ (r i : Nat) (m : String) (le : Option String),
      List.Chain' (fun a b => b = advanceModel a) (runLoop succ err i m r le).attempts := by
  intro r
  induction r with
  | zero =>
    intro i m le
    rw [runLoop_attempts_nil]
    exact List.chain'_nil
  | succ r ih =>
    intro i m le
    rw [runLoop_attempts_cons]
    by_cases hs : succ i m
    · rw [if_pos hs]
      exact List.chain'_singleton m
    · rw [if_neg hs]
      rw [List.chain'_cons']
      refine ⟨?_, ih i.succ _ _⟩
      intro y hy
      by_cases hr : 0 < r
      · obtain ⟨t, ht⟩ := runLoop_attempts_head succ err (i + 1)
          (if 0 < r then advanceModel m else m) r (some (err i m)) hr
        rw [ht] at hy
        simp only [List.head?_cons, Option.mem_def, Option.some.injEq] at hy
        rw [← hy, if_pos hr]
      · have hr0 : r = 0 := Nat.eq_zero_of_not_pos hr
        subst hr0
        rw [runLoop_attempts_nil] at hy
        simp at hy

theorem runLoop_fail_attempts (err : Nat → String → String) :
    ∀ (r i : Nat) (m : String) (le : Option String),
      ((runLoop (fun _ _ => false) err i m r le).attempts.length = r ∧
       (runLoop (fun _ _ => false) err i m r le).image = none) := by
  intro r
  induction r with
  | zero => intro i m le; exact ⟨rfl, rfl⟩
  | succ r ih =>
    intro i m le
    have h1 := ih (i + 1) (if 0 < r then advanceModel m else m) (some (err i m))
    constructor
    · rw [runLoop_attempts_cons, if_neg (by simp)]
      simp [h1.1]
    · simp [runLoop, h1.2]

theorem errorMessage_ne_empty (o : Option String) : errorMessage o ≠ "" := by
  cases o with
  | none => simp [errorMessage]
  | some m =>
    by_cases hm : m = "" <;> simp [errorMessage, hm]

/-- When the retry loop produces no image, the worker persists the job as
`failed` with the captured message appended to its history — whether or not
the owning user record is found for the refund. -/
theorem runWorker_failed_job (succ : Nat → String → Bool) (err : Nat → String → String)
    (s : State) (jid : Nat) (j : JobR)
    (hfj : findJob s jid = some j)
    (himg : (runLoop succ err 0 (initialModelId j.model) 3 none).image = none) :
    findJob (runWorker succ err s jid) jid = some
      { j with status := JobStatus.failed,
               errorMsg := some (errorMessage
                 (runLoop succ err 0 (initialModelId j.model) 3 none).lastError),
               history := (j.history ++ [JobStatus.processing]) ++ [JobStatus.failed] } := by
  cases hfu : findUser s j.userId with
  | none =>
    have hrw : runWorker succ err s jid =
        setJob (setJob s jid fun k =>
            { k with status := .processing, history := k.history ++ [.processing] }) jid fun k =>
          { k with status := .failed,
                   errorMsg := some (errorMessage
                     (runLoop succ err 0 (initialModelId j.model) 3 none).lastError),
                   history := k.history ++ [.failed] } := by
      simp [runWorker, hfj, himg, hfu]
    rw [hrw, findJob_setJob]
    · rw [findJob_setJob]
      · rw [hfj]
        rfl
      · intro k
        rfl
    · intro k
      rfl
  | some u2 =>
    have hrw : runWorker succ err s jid =
        addTx (setUser (setJob (setJob s jid fun k =>
                { k with status := .processing, history := k.history ++ [.processing] }) jid fun k =>
              { k with status := .failed,
                       errorMsg := some (errorMessage
                         (runLoop succ err 0 (initialModelId j.model) 3 none).lastError),
                       history := k.history ++ [.failed] })
            j.userId fun u => { u with credits := u.credits + 1 })
          (refundTx j.userId jid) := by
      simp [runWorker, hfj, himg, hfu]
    rw [hrw, findJob_addTx, findJob_setUser, findJob_setJob]
    · rw [findJob_setJob]
      · rw [hfj]
        rfl
      · intro k
        rfl
    · intro k
      rfl

theorem purchase_spec (s : State) (uid : Nat) (u : UserR) (pid pm : String)
    (c p : Int) (hfu : findUser s uid = some u)
    (hpkg : purchasePackages pid = some (c, p)) :
    (findUser (purchase s uid pid pm).2 uid).map UserR.credits = some (u.credits + c) ∧
    (purchase s uid pid pm).2.ledger = purchaseTx uid pid pm p c :: s.ledger ∧
    (purchase s uid pid pm).1 = PurchaseResult.purchased (u.credits + c) := by
  have hstate : (purchase s uid pid pm).2 =
      addTx (setUser s uid fun v => { v with credits := v.credits + c })
        (purchaseTx uid pid pm p c) := by
    simp [purchase, hfu, hpkg]
  refine ⟨?_, ?_, ?_⟩
  · rw [hstate, findUser_addTx, findUser_setUser]
    · rw [hfu]
      rfl
    · intro v
      rfl
  · rw [hstate]
    rfl
  · simp [purchase, hfu, hpkg]

/-! ### Concrete states used by witnesses and counterexamples -/

/-- Register one user, admit one job, run its worker against a provider that
fails every attempt, then purchase the `pro` package — the spec's example
scenario extended with a purchase. -/
def demoOps : List Op :=
  [Op.register "user@example.com",
   Op.submitJob 0 "a cat in space" "",
   Op.runJob 0 (fun _ _ => false) (fun _ _ => "Request timeout after 60s"),
   Op.purchase 0 "pro" "card"]

/-- The machine state right after registering one user. -/
def oneUserState : State := runOps [Op.register "user@example.com"]

def brokeState : State :=
  { users := [{ id := 0, email := "broke@example.com", credits := 0 }],
    jobs := [], ledger := [], nextUserId := 1, nextJobId := 0 }

def payerState : State :=
  { users := [{ id := 0, email := "payer@example.com", credits := 0 }],
    jobs := [], ledger := [], nextUserId := 1, nextJobId := 0 }

/-- A state with one user and one pending job, straight from an admitted
submission. -/
def oneUserJobState : State :=
  { users := [{ id := 0, email := "user@example.com", credits := 99 }],
    jobs := [{ id := 0, userId := 0, prompt := "a cat", model := "",
               status := .pending, errorMsg := none, resultModel := none,
               history := [.pending] }],
    ledger := [], nextUserId := 1, nextJobId := 1 }

/-- A state holding a pending job whose `userId` matches no user record,
exercising the worker's refund-time user lookup failure. -/
def orphanState : State :=
  { users := [],
    jobs := [{ id := 0, userId := 7, prompt := "a cat", model := "",
               status := .pending, errorMsg := none, resultModel := none,
               history := [.pending] }],
    ledger := [], nextUserId := 0, nextJobId := 1 }

/-! ### The claims -/

/-- C1: for every user and every sequence of sequential operations
(register, submit-job, worker run completing or failing the job, purchase)
from the empty initial state, the user's stored credits balance equals the
sum of the `credits` deltas of all ledger entries created for that user. -/
theorem C1_balance_conservation (ops : List Op) :
    ∀ u ∈ (runOps ops).users, u.credits = ledgerSum (runOps ops).ledger u.id :=
  (inv_runOps ops).balance

theorem C1_balance_conservation_witness :
    ({ id := 0, email := "user@example.com", credits := 320 } : UserR) ∈ (runOps demoOps).users ∧
    (320 : Int) = ledgerSum (runOps demoOps).ledger 0 :=
  ⟨by decide, C1_balance_conservation demoOps
    { id := 0, email := "user@example.com", credits := 320 } (by decide)⟩

/-- C3: submitting a job (with a non-empty prompt) for a user whose current
balance is below 1 returns the insufficient-credits error and has no side
effects: the returned state is exactly the input state, so no Job record,
no ledger entry and no balance change. -/
theorem C3_admission_guard (s : State) (uid : Nat) (prompt model : String) (u : UserR)
    (hfu : findUser s uid = some u) (hlow : u.credits < 1) (hp : prompt ≠ "") :
    submitJob s uid prompt model = (SubmitResult.insufficientCredits, s) := by
  simp [submitJob, hfu, hp, hlow]

theorem C3_admission_guard_witness :
    submitJob brokeState 0 "a cat" "" = (SubmitResult.insufficientCredits, brokeState) :=
  C3_admission_guard brokeState 0 "a cat" ""
    { id := 0, email := "broke@example.com", credits := 0 }
    (by decide) (by decide) (by decide)

/-- C5 counterexample: with requested model `midjourney` and a provider
failing every attempt, all three retry-loop attempts use the model id
`prompthero/openjourney-v4` — consecutive attempts reuse the same model,
refuting the claim that every retry advances to the next fallback model. -/
theorem C5_same_model_counterexample :
    (runLoop (fun _ _ => false) (fun _ _ => "error") 0
        (initialModelId "midjourney") 3 none).attempts =
      ["prompthero/openjourney-v4", "prompthero/openjourney-v4",
       "prompthero/openjourney-v4"] := by
  rfl

/-- C5 amended: consecutive retry attempts are related by the source's
fallback step `advanceModel`, which advances FLUX.1-schnell to
stable-diffusion-2-1 and stable-diffusion-2-1 to stable-diffusion-v1-5 but
leaves every other model id (openjourney-v4 reached via `midjourney`, and
stable-diffusion-v1-5 itself) unchanged, so such attempts repeat a model. -/
theorem C5_fallback_chain :
    (∀ (succ : Nat → String → Bool) (err : Nat → String → String)
        (i : Nat) (m : String) (r : Nat) (le : Option String),
      List.Chain' (fun a b => b = advanceModel a)
        (runLoop succ err i m r le).attempts) ∧
    advanceModel "black-forest-labs/FLUX.1-schnell" = "stabilityai/stable-diffusion-2-1" ∧
    advanceModel "stabilityai/stable-diffusion-2-1" = "runwayml/stable-diffusion-v1-5" ∧
    advanceModel "prompthero/openjourney-v4" = "prompthero/openjourney-v4" ∧
    advanceModel "runwayml/stable-diffusion-v1-5" = "runwayml/stable-diffusion-v1-5" :=
  ⟨fun succ err i m r le => runLoop_chain succ err r i m le, rfl, rfl, rfl, rfl⟩

/-- C6: against a provider that fails on every attempt, the retry loop makes
exactly 3 attempts and produces no image, and the worker persists the job in
status `failed` with a non-empty error message. -/
theorem C6_retry_bound (err : Nat → String → String) (s : State) (jid : Nat) (j : JobR)
    (hfj : findJob s jid = some j) :
    (runLoop (fun _ _ => false) err 0 (initialModelId j.model) 3 none).attempts.length = 3 ∧
    (runLoop (fun _ _ => false) err 0 (initialModelId j.model) 3 none).image = none ∧
    ∃ j2, findJob (runWorker (fun _ _ => false) err s jid) jid = some j2 ∧
      j2.status = JobStatus.failed ∧
      ∃ m, j2.errorMsg = some m ∧ m ≠ "" := by
  obtain ⟨hlen, himg⟩ := runLoop_fail_attempts err 3 0 (initialModelId j.model) none
  exact ⟨hlen, himg,
    _, runWorker_failed_job (fun _ _ => false) err s jid j hfj himg, rfl,
    errorMessage (runLoop (fun _ _ => false) err 0 (initialModelId j.model) 3 none).lastError,
    rfl, errorMessage_ne_empty _⟩

theorem C6_retry_bound_witness :
    ((runLoop (fun _ _ => false) (fun _ _ => "boom") 0
        (initialModelId "") 3 none).attempts.length = 3 ∧
     (runLoop (fun _ _ => false) (fun _ _ => "boom") 0
        (initialModelId "") 3 none).image = none ∧
     ∃ j2, findJob (runWorker (fun _ _ => false) (fun _ _ => "boom") oneUserJobState 0) 0
          = some j2 ∧
        j2.status = JobStatus.failed ∧
        ∃ m, j2.errorMsg = some m ∧ m ≠ "") :=
  C6_retry_bound (fun _ _ => "boom") oneUserJobState 0
    { id := 0, userId := 0, prompt := "a cat", model := "",
      status := .pending, errorMsg := none, resultModel := none,
      history := [.pending] } (by decide)

/-- C7: after any sequence of sequential operations, every job's persisted
status history is a prefix of [pending, processing, completed] or of
[pending, processing, failed]: it never regresses, never leaves a terminal
state, and never reaches a terminal state without passing `processing`. -/
theorem C7_monotonic_status (ops : List Op) :
    ∀ j ∈ (runOps ops).jobs,
      (∃ rest, j.history ++ rest =
        [JobStatus.pending, JobStatus.processing, JobStatus.completed]) ∨
      (∃ rest, j.history ++ rest =
        [JobStatus.pending, JobStatus.processing, JobStatus.failed]) := by
  intro j hj
  obtain ⟨hne, hh⟩ := (inv_runOps ops).histories j hj
  rw [hh]
  cases hst : j.status with
  | pending => exact Or.inl ⟨[JobStatus.processing, JobStatus.completed], rfl⟩
  | processing => exact absurd hst hne
  | completed => exact Or.inl ⟨[], rfl⟩
  | failed => exact Or.inr ⟨[], rfl⟩

/-- C9: a registration with a fresh email creates the new user with exactly
100 credits and appends exactly one `bonus` ledger entry with credits 100
and amount 0 for that user. -/
theorem C9_registration_bonus (s : State) (email : String)
    (hfresh : s.users.find? (fun u => u.email == email) = none) :
    (registerUser s email).2.users =
      { id := s.nextUserId, email := email, credits := 100 } :: s.users ∧
    (registerUser s email).2.ledger = bonusTx s.nextUserId :: s.ledger ∧
    (bonusTx s.nextUserId).type = TxType.bonus ∧
    (bonusTx s.nextUserId).credits = 100 ∧
    (bonusTx s.nextUserId).amount = 0 ∧
    (bonusTx s.nextUserId).userId = s.nextUserId ∧
    (registerUser s email).1 = RegisterResult.registered s.nextUserId := by
  refine ⟨?_, ?_, rfl, rfl, rfl, rfl, ?_⟩ <;> simp [registerUser, hfresh, addTx]

theorem C9_registration_bonus_witness :
    (registerUser initState "user@example.com").2.users =
      { id := 0, email := "user@example.com", credits := 100 } :: initState.users ∧
    (registerUser initState "user@example.com").2.ledger = bonusTx 0 :: initState.ledger ∧
    (bonusTx 0).type = TxType.bonus ∧
    (bonusTx 0).credits = 100 ∧
    (bonusTx 0).amount = 0 ∧
    (bonusTx 0).userId = 0 ∧
    (registerUser initState "user@example.com").1 = RegisterResult.registered 0 :=
  C9_registration_bonus initState "user@example.com" (by decide)

/-- C10: when the generation fails and no user record matches the job's
`userId` at refund time, the job is still persisted as `failed` with a
non-empty error message, while users and ledger are untouched — no balance
change and no refund entry; the compensating credit happens only when the
user record exists. -/
theorem C10_refund_needs_user (succ : Nat → String → Bool) (err : Nat → String → String)
    (s : State) (jid : Nat) (j : JobR)
    (hfj : findJob s jid = some j)
    (himg : (runLoop succ err 0 (initialModelId j.model) 3 none).image = none)
    (hfu : findUser s j.userId = none) :
    (∃ j2, findJob (runWorker succ err s jid) jid = some j2 ∧
      j2.status = JobStatus.failed ∧
      ∃ m, j2.errorMsg = some m ∧ m ≠ "") ∧
    (runWorker succ err s jid).users = s.users ∧
    (runWorker succ err s jid).ledger = s.ledger := by
  have hrw : runWorker succ err s jid =
      setJob (setJob s jid fun k =>
          { k with status := .processing, history := k.history ++ [.processing] }) jid fun k =>
        { k with status := .failed,
                 errorMsg := some (errorMessage
                   (runLoop succ err 0 (initialModelId j.model) 3 none).lastError),
                 history := k.history ++ [.failed] } := by
    simp [runWorker, hfj, himg, hfu]
  refine ⟨⟨_, runWorker_failed_job succ err s jid j hfj himg, rfl,
      errorMessage (runLoop succ err 0 (initialModelId j.model) 3 none).lastError,
      rfl, errorMessage_ne_empty _⟩, ?_, ?_⟩
  · rw [hrw]
    rfl
  · rw [hrw]
    rfl

theorem C10_refund_needs_user_witness :
    ((∃ j2, findJob (runWorker (fun _ _ => false) (fun _ _ => "boom") orphanState 0) 0
        = some j2 ∧
      j2.status = JobStatus.failed ∧
      ∃ m, j2.errorMsg = some m ∧ m ≠ "") ∧
     (runWorker (fun _ _ => false) (fun _ _ => "boom") orphanState 0).users =
       orphanState.users ∧
     (runWorker (fun _ _ => false) (fun _ _ => "boom") orphanState 0).ledger =
       orphanState.ledger) :=
  C10_refund_needs_user (fun _ _ => false) (fun _ _ => "boom") orphanState 0
    { id := 0, userId := 7, prompt := "a cat", model := "",
      status := .pending, errorMsg := none, resultModel := none,
      history := [.pending] }
    (by decide) (by decide) (by decide)

/-- The failed job produced by `demoOps`. -/
def demoFailedJob : JobR :=
  { id := 0, userId := 0, prompt := "a cat in space",
    model := "stabilityai/stable-diffusion-xl-base-1.0",
    status := .failed, errorMsg := some "Request timeout after 60s",
    resultModel := none,
    history := [.pending, .processing, .failed] }

theorem C7_monotonic_status_witness :
    demoFailedJob ∈ (runOps demoOps).jobs ∧
    ((∃ rest, demoFailedJob.history ++ rest =
        [JobStatus.pending, JobStatus.processing, JobStatus.completed]) ∨
     (∃ rest, demoFailedJob.history ++ rest =
        [JobStatus.pending, JobStatus.processing, JobStatus.failed])) :=
  ⟨by decide, C7_monotonic_status demoOps demoFailedJob (by decide)⟩

/-- C2: (a) after any operation sequence, every job in `failed` status has
exactly one `refund` ledger entry — with `credits = +1` and `metadata.jobId`
equal to the job's id — and every job in `completed` status has none;
(b) finalizing a failure with the owning user present increments that
user's stored balance by exactly 1. -/
theorem C2_refund_symmetry :
    (∀ ops : List Op, ∀ j ∈ (runOps ops).jobs,
        (j.status = JobStatus.failed →
          refundsFor (runOps ops).ledger j.id = [refundTx j.userId j.id]) ∧
        (j.status = JobStatus.completed → refundsFor (runOps ops).ledger j.id = [])) ∧
    (∀ (succ : Nat → String → Bool) (err : Nat → String → String) (s : State)
        (jid : Nat) (j : JobR) (u : UserR),
        findJob s jid = some j →
        findUser s j.userId = some u →
        (runLoop succ err 0 (initialModelId j.model) 3 none).image = none →
        (findUser (runWorker succ err s jid) j.userId).map UserR.credits
          = some (u.credits + 1)) := by
  constructor
  · intro ops j hj
    have hr := (inv_runOps ops).refunds j hj
    constructor
    · intro hf
      rw [hf] at hr
      simpa using hr
    · intro hc
      rw [hc] at hr
      simpa using hr
  · intro succ err s jid j u hfj hfu himg
    have hrw : runWorker succ err s jid =
        addTx (setUser (setJob (setJob s jid fun k =>
                { k with status := .processing, history := k.history ++ [.processing] }) jid fun k =>
              { k with status := .failed,
                       errorMsg := some (errorMessage
                         (runLoop succ err 0 (initialModelId j.model) 3 none).lastError),
                       history := k.history ++ [.failed] })
            j.userId fun v => { v with credits := v.credits + 1 })
          (refundTx j.userId jid) := by
      simp [runWorker, hfj, himg, hfu]
    rw [hrw, findUser_addTx]
    rw [findUser_setUser]
    · rw [findUser_setJob, findUser_setJob, hfu]
      rfl
    · intro v
      rfl

theorem C2_refund_symmetry_witness :
    refundsFor (runOps demoOps).ledger 0 = [refundTx 0 0] ∧
    (findUser (runWorker (fun _ _ => false) (fun _ _ => "boom") oneUserJobState 0) 0).map
        UserR.credits = some ((99 : Int) + 1) :=
  ⟨(C2_refund_symmetry.1 demoOps demoFailedJob (by decide)).1 (by decide),
   C2_refund_symmetry.2 (fun _ _ => false) (fun _ _ => "boom") oneUserJobState 0
     { id := 0, userId := 0, prompt := "a cat", model := "", status := .pending,
       errorMsg := none, resultModel := none, history := [.pending] }
     { id := 0, email := "user@example.com", credits := 99 }
     (by decide) (by decide) (by decide)⟩

/-- C4 counterexample: submitting for a freshly registered user (balance
100), the first persisted state of the submission already contains the Job
record while the balance is still 100 and no usage ledger entry exists for
the job — so the debit and its ledger entry are NOT applied before the Job
record is created, and the system does pass through the state the claim
forbids. -/
theorem C4_order_counterexample :
    ∃ st ∈ submitTrace oneUserState 0 "a cat" "",
      (findJob st 0).isSome = true ∧
      (findUser st 0).map UserR.credits = some 100 ∧
      usageFor st.ledger 0 = [] := by
  decide

/-- C4 amended: during an admitted submission (user found, prompt
non-empty, balance at least 1, starting from an invariant-satisfying state)
the handler passes through exactly three persisted states: first the Job
record is created (balance and ledger untouched), then the balance is
debited by 1, and last the usage ledger entry is appended; both side
effects complete before the handler returns the accepted job id, and the
returned state is the final trace state. -/
theorem C4_side_effect_order (s : State) (hinv : SysInv s)
    (uid : Nat) (prompt model : String) (u : UserR)
    (hfu : findUser s uid = some u) (hp : prompt ≠ "") (hcr : ¬u.credits < 1) :
    ∃ s1 s2 s3, submitTrace s uid prompt model = [s1, s2, s3] ∧
      (findJob s1 s.nextJobId).isSome = true ∧
      findUser s1 uid = some u ∧
      usageFor s1.ledger s.nextJobId = [] ∧
      (findUser s2 uid).map UserR.credits = some (u.credits - 1) ∧
      usageFor s2.ledger s.nextJobId = [] ∧
      (findUser s3 uid).map UserR.credits = some (u.credits - 1) ∧
      usageFor s3.ledger s.nextJobId = [usageTx uid s.nextJobId prompt] ∧
      (submitJob s uid prompt model).2 = s3 ∧
      (submitJob s uid prompt model).1 = SubmitResult.accepted s.nextJobId := by
  have hnil : usageFor s.ledger s.nextJobId = [] :=
    usageFor_eq_nil fun t ht hcontra =>
      Nat.lt_irrefl s.nextJobId (hinv.txJobLt t ht s.nextJobId hcontra)
  refine ⟨submitStep1 s uid prompt model,
    submitStep2 (submitStep1 s uid prompt model) uid,
    submitStep3 (submitStep2 (submitStep1 s uid prompt model) uid) uid s.nextJobId prompt,
    by simp [submitTrace, hfu, hp, hcr], ?_, ?_, ?_, ?_, ?_, ?_, ?_, ?_, ?_⟩
  · simp [findJob, submitStep1, List.find?_cons]
  · exact hfu
  · exact hnil
  · rw [show findUser (submitStep2 (submitStep1 s uid prompt model) uid) uid
        = findUser (setUser (submitStep1 s uid prompt model) uid
            fun v => { v with credits := v.credits - 1 }) uid from rfl]
    rw [findUser_setUser]
    · rw [show findUser (submitStep1 s uid prompt model) uid = findUser s uid from rfl, hfu]
      rfl
    · intro v
      rfl
  · exact hnil
  · rw [show findUser (submitStep3 (submitStep2 (submitStep1 s uid prompt model) uid)
          uid s.nextJobId prompt) uid
        = findUser (setUser (submitStep1 s uid prompt model) uid
            fun v => { v with credits := v.credits - 1 }) uid from rfl]
    rw [findUser_setUser]
    · rw [show findUser (submitStep1 s uid prompt model) uid = findUser s uid from rfl, hfu]
      rfl
    · intro v
      rfl
  · show usageFor (usageTx uid s.nextJobId prompt :: s.ledger) s.nextJobId = _
    rw [usageFor_cons, if_pos ⟨rfl, rfl⟩, hnil]
  · simp [submitJob, hfu, hp, hcr]
  · simp [submitJob, hfu, hp, hcr]

theorem C4_side_effect_order_witness :
    ∃ s1 s2 s3, submitTrace oneUserState 0 "a cat" "" = [s1, s2, s3] ∧
      (findJob s1 oneUserState.nextJobId).isSome = true ∧
      findUser s1 0 = some { id := 0, email := "user@example.com", credits := 100 } ∧
      usageFor s1.ledger oneUserState.nextJobId = [] ∧
      (findUser s2 0).map UserR.credits = some ((100 : Int) - 1) ∧
      usageFor s2.ledger oneUserState.nextJobId = [] ∧
      (findUser s3 0).map UserR.credits = some ((100 : Int) - 1) ∧
      usageFor s3.ledger oneUserState.nextJobId = [usageTx 0 oneUserState.nextJobId "a cat"] ∧
      (submitJob oneUserState 0 "a cat" "").2 = s3 ∧
      (submitJob oneUserState 0 "a cat" "").1 = SubmitResult.accepted oneUserState.nextJobId :=
  C4_side_effect_order oneUserState (inv_runOps [Op.register "user@example.com"]) 0 "a cat" ""
    { id := 0, email := "user@example.com", credits := 100 }
    (by decide) (by decide) (by decide)

/-- C8 counterexample: the billing catalog's `pro` entry advertises 200
credits, but purchasing `pro` raises the buyer's balance by 220 (the
handler's internal table already folds in the bonus), so the balance
increase differs from the catalog's credit amount. -/
theorem C8_catalog_counterexample :
    ∃ entry ∈ billingCatalog, entry.id = "pro" ∧ entry.credits = 200 ∧
      (findUser (purchase payerState 0 "pro" "card").2 0).map UserR.credits = some 220 ∧
      (220 : Int) ≠ 200 := by
  decide

/-- C8 amended: for every catalog package, the purchase handler's internal
table grants the catalog's credits PLUS its bonus (50, 220, 600) at the
catalog's price; a purchase raises the buyer's balance by exactly that
granted amount and appends exactly one `purchase` ledger entry whose
`amount` is the package price and whose metadata records the packageId and
paymentMethod. -/
theorem C8_purchase_contract (entry : CatalogPackage) (hmem : entry ∈ billingCatalog)
    (s : State) (uid : Nat) (u : UserR) (pm : String) (hfu : findUser s uid = some u) :
    purchasePackages entry.id =
      some (entry.credits + entry.bonus.getD 0, entry.priceCents) ∧
    (findUser (purchase s uid entry.id pm).2 uid).map UserR.credits =
      some (u.credits + (entry.credits + entry.bonus.getD 0)) ∧
    (purchase s uid entry.id pm).2.ledger =
      purchaseTx uid entry.id pm entry.priceCents (entry.credits + entry.bonus.getD 0)
        :: s.ledger ∧
    (purchase s uid entry.id pm).1 =
      PurchaseResult.purchased (u.credits + (entry.credits + entry.bonus.getD 0)) := by
  fin_cases hmem
  · exact ⟨rfl, purchase_spec s uid u "starter" pm 50 999 hfu rfl⟩
  · exact ⟨rfl, purchase_spec s uid u "pro" pm 220 2999 hfu rfl⟩
  · exact ⟨rfl, purchase_spec s uid u "ultimate" pm 600 5999 hfu rfl⟩

theorem C8_purchase_contract_witness :
    purchasePackages "starter" = some ((50 : Int) + 0, 999) ∧
    (findUser (purchase payerState 0 "starter" "card").2 0).map UserR.credits =
      some ((0 : Int) + (50 + 0)) ∧
    (purchase payerState 0 "starter" "card").2.ledger =
      purchaseTx 0 "starter" "card" 999 (50 + 0) :: payerState.ledger ∧
    (purchase payerState 0 "starter" "card").1 =
      PurchaseResult.purchased ((0 : Int) + (50 + 0)) :=
  C8_purchase_contract
    { id := "starter", name := "Starter Pack", credits := 50, priceCents := 999,
      popular := false, bonus := none } (by decide) payerState 0
    { id := 0, email := "payer@example.com", credits := 0 } "card" (by decide)
